import Mathlib

/-! Model of the JavaScript value fragment that `perimeter.debug.js` manipulates. -/

/-- A JavaScript number restricted to the values the library can produce:
`NaN`, the two infinities, and (mathematical) integers. -/
inductive JNum where
  | nan : JNum
  | posInf : JNum
  | negInf : JNum
  | int (n : Int) : JNum
deriving DecidableEq, Repr

/-! A JavaScript value as it may appear in the `outline` option / field.
Arrays carry their elements through the companion type `JSList` so that all
recursion over values is structural. -/

mutual

inductive JSVal where
  | num (n : JNum) : JSVal
  | str (s : String) : JSVal
  | arr (l : JSList) : JSVal
  | bool (b : Bool) : JSVal
  | undefV : JSVal
  | jsnull : JSVal

inductive JSList where
  | nil : JSList
  | cons (v : JSVal) (l : JSList) : JSList

end

/-- Builds a `JSList` from a plain Lean list of values. -/
def JSList.ofList : List JSVal → JSList
  | [] => .nil
  | v :: vs => .cons v (JSList.ofList vs)

/-- `l[i]` on a JS array, `none` when out of range. -/
def JSList.get? : JSList → Nat → Option JSVal
  | .nil, _ => none
  | .cons v _, 0 => some v
  | .cons _ l, i + 1 => JSList.get? l i

/-- Number of elements of a JS array. -/
def JSList.length : JSList → Nat
  | .nil => 0
  | .cons _ l => JSList.length l + 1

/-- JS truthiness (`ToBoolean`). -/
def toBoolean : JSVal → Bool
  | .num (.int n) => n != 0
  | .num .nan => false
  | .num .posInf => true
  | .num .negInf => true
  | .str s => s != ""
  | .arr _ => true
  | .bool b => b
  | .undefV => false
  | .jsnull => false

/-- Decimal digit character for a value `< 10` (JS number-to-string building block). -/
def digitChar : Nat → Char
  | 0 => '0' | 1 => '1' | 2 => '2' | 3 => '3' | 4 => '4'
  | 5 => '5' | 6 => '6' | 7 => '7' | 8 => '8' | _ => '9'

/-- Numeric value of a decimal digit character. -/
def digitVal (c : Char) : Nat := c.toNat - 48

/-- Decimal digits of `n`, most significant first, with an accumulator.
The first argument is fuel (`n` itself bounds the recursion depth). -/
def natToDigitsAux : Nat → Nat → List Char → List Char
  | 0, _, acc => acc
  | fuel + 1, n, acc =>
    if n < 10 then digitChar n :: acc
    else natToDigitsAux fuel (n / 10) (digitChar (n % 10) :: acc)

/-- Decimal digit characters of a natural number (JS `ToString` on naturals). -/
def natToDigits (n : Nat) : List Char := natToDigitsAux (n + 1) n []

/-- JS `ToString` of an integer number. Scope note: always plain decimal
digits; the exponential notation JS switches to at magnitude `1e21` is not
modelled. -/
def intToChars (n : Int) : List Char :=
  if n < 0 then '-' :: natToDigits n.natAbs else natToDigits n.toNat

/-- JS `ToString` of a number. -/
def numToChars : JNum → List Char
  | .nan => "NaN".data
  | .posInf => "Infinity".data
  | .negInf => "-Infinity".data
  | .int n => intToChars n

/-- JS whitespace characters recognised while trimming numeric strings. -/
def jsSpace (c : Char) : Bool := c = ' ' ∨ c = '\t' ∨ c = '\n' ∨ c = '\r'

/-- `Array.prototype.join(",")` gluing: elements separated by a single comma. -/
def joinComma : List (List Char) → List Char
  | [] => []
  | [x] => x
  | x :: xs => x ++ ',' :: joinComma xs

/-! JS `ToString` (array elements that are `undefined`/`null` render as the
empty string, exactly as `Array.prototype.join` does; elements are glued with
a comma). -/

mutual

def jsToChars : JSVal → List Char
  | .num n => numToChars n
  | .str s => s.data
  | .bool true => "true".data
  | .bool false => "false".data
  | .undefV => "undefined".data
  | .jsnull => "null".data
  | .arr l => joinComma (jsElemsToChars l)

def jsElemsToChars : JSList → List (List Char)
  | .nil => []
  | .cons .undefV l => [] :: jsElemsToChars l
  | .cons .jsnull l => [] :: jsElemsToChars l
  | .cons v l => jsToChars v :: jsElemsToChars l

end

/-- Value of a list of decimal digit characters, most significant first. -/
def ofDigits (ds : List Char) : Nat := ds.foldl (fun a c => 10 * a + digitVal c) 0

/-- Leading sign of a numeric string: strips one `-` or `+`. -/
def splitSign (cs : List Char) : Int × List Char :=
  match cs with
  | [] => (1, [])
  | c :: rest => if c = '-' then (-1, rest) else if c = '+' then (1, rest) else (1, cs)

/-- Both-ends whitespace trim (JS `StringToNumber` trimming). -/
def trimChars (cs : List Char) : List Char :=
  ((cs.dropWhile jsSpace).reverse.dropWhile jsSpace).reverse

/-- JS `StringToNumber` on the numeric-literal fragment the library can meet:
whitespace-trimmed optionally signed decimal integers and the `Infinity` forms;
everything else is `NaN`. Scope note: decimal-point and exponent literals are
out of the modelled fragment, and huge digit runs are kept exact instead of
saturating to the infinities as JS numbers do at `2^1024`. -/
def strToNumberChars (cs : List Char) : JNum :=
  let t := trimChars cs
  if t = [] then .int 0
  else if t = "Infinity".data then .posInf
  else if t = "+Infinity".data then .posInf
  else if t = "-Infinity".data then .negInf
  else
    let p := splitSign t
    if p.2 ≠ [] ∧ p.2.all Char.isDigit then .int (p.1 * (ofDigits p.2 : Int)) else .nan

/-- `parseInt(·, 10)` on a string: trim leading whitespace, one optional sign,
then the maximal run of leading decimal digits; `NaN` if that run is empty.
Scope note: the result is kept as an exact integer; the saturation of JS
numbers to plus or minus `Infinity` once the parsed value reaches `2^1024`
is not modelled, so no theorem here should rely on which finite or infinite
number a huge digit run denotes. -/
def parseIntChars (cs : List Char) : JNum :=
  let t := cs.dropWhile jsSpace
  let p := splitSign t
  let ds := p.2.takeWhile Char.isDigit
  if ds = [] then .nan else .int (p.1 * (ofDigits ds : Int))

/-- JS `ToNumber`. -/
def toNumber : JSVal → JNum
  | .num n => n
  | .undefV => .nan
  | .jsnull => .int 0
  | .bool true => .int 1
  | .bool false => .int 0
  | .str s => strToNumberChars s.data
  | .arr l => strToNumberChars (jsToChars (.arr l))

/-- The global `isNaN` (coerces, then tests for `NaN`). -/
def jsIsNaN (v : JSVal) : Bool := toNumber v = .nan

/-- The global `parseInt(v, 10)` (stringifies, then parses). -/
def jsParseInt (v : JSVal) : JNum := parseIntChars (jsToChars v)

/-- Property read `v[i]`: `Except.error` models the `TypeError` thrown when
indexing `undefined` or `null`; on other non-array, non-string values the
read yields `undefined`. -/
def jsIndexE : JSVal → Nat → Except String JSVal
  | .undefV, _ => .error "TypeError: Cannot read properties of undefined"
  | .jsnull, _ => .error "TypeError: Cannot read properties of null"
  | .arr l, i => .ok ((JSList.get? l i).getD .undefV)
  | .str s, i =>
    .ok (match s.data.get? i with
         | some c => .str (String.mk [c])
         | none => .undefV)
  | _, _ => .ok .undefV


/-- One iteration of the `while (i < 4)` loop body of
`Perimeter.prototype.formatOutline`: if the whole input coerces to a number,
push `parseInt(outline, 10)`; otherwise index the input at `i` (which throws
for `undefined`/`null` receivers) and push `0` for falsy entries,
`parseInt(entry, 10)` for truthy ones. -/
def formatEntry (outline : JSVal) (i : Nat) : Except String JNum :=
  if jsIsNaN outline = false then .ok (jsParseInt outline)
  else
    match jsIndexE outline i with
    | .error m => .error m
    | .ok e => .ok (if toBoolean e = false then .int 0 else jsParseInt e)

/-- `Perimeter.prototype.formatOutline`: four loop iterations, `i = 0,1,2,3`,
accumulating into an array; an exception in an iteration aborts the loop. -/
def formatOutline (outline : JSVal) : Except String (List JNum) := do
  let a ← formatEntry outline 0
  let b ← formatEntry outline 1
  let c ← formatEntry outline 2
  let d ← formatEntry outline 3
  return [a, b, c, d]

/-- JS `||` on numbers as used by the library (`a || b` picks `b` when `a` is
the falsy number `0`). -/
def jsOr (a b : Int) : Int := if a = 0 then b else a

/-- Result of `getBoundingClientRect` for an element, when supported. -/
structure BoundingBox where
  width : Int
  height : Int
  top : Int
  left : Int
deriving DecidableEq

/-- A host element, reduced to the properties the library reads. `gbcr = none`
models a host without the `getBoundingClientRect` primitive. -/
structure Elem where
  gbcr : Option BoundingBox
  offsetWidth : Int
  offsetHeight : Int
  offsetTop : Int
  offsetLeft : Int
deriving DecidableEq

/-- The document-level scroll and origin values the library queries. -/
structure ScrollEnv where
  docElemScrollTop : Int
  docBodyScrollTop : Int
  docElemScrollLeft : Int
  docBodyScrollLeft : Int
  docElemClientTop : Int
  docElemClientLeft : Int
deriving DecidableEq

/-- `Perimeter.prototype.getScrollPos`: `docElem.scrollTop || docBody.scrollTop`
and likewise for left. Returns `(top, left)`. -/
def getScrollPos (env : ScrollEnv) : Int × Int :=
  (jsOr env.docElemScrollTop env.docBodyScrollTop,
   jsOr env.docElemScrollLeft env.docBodyScrollLeft)

/-- The cached rectangle (`this.rects`). -/
structure Rect where
  width : Int
  height : Int
  top : Int
  left : Int
deriving DecidableEq

/-- `Perimeter.prototype.getClientRect`: throws when the element lacks
`getBoundingClientRect`; otherwise falls back to offset dimensions when the
box reports zero width/height, and scroll-adjusts top/left minus the document
origin offset. -/
def getClientRect (env : ScrollEnv) (elem : Elem) : Except String Rect :=
  match elem.gbcr with
  | none =>
    .error "Perimeter.js detected that your browser does not support getBoundingClientRect"
  | some box =>
    .ok { width := jsOr box.width elem.offsetWidth,
          height := jsOr box.height elem.offsetHeight,
          top := box.top + (getScrollPos env).1 - env.docElemClientTop,
          left := box.left + (getScrollPos env).2 - env.docElemClientLeft }

/-- The fields of a fully constructed `Perimeter` instance that the claims
observe. `registered` records membership of the module-level `instances`
list, `listenersBound` that `init` reached the `_addEventListener` calls. -/
structure PerimeterState where
  target : Elem
  outline : JSVal
  rects : Rect
  alarm : Bool
  breaches : List (Int × Int)
  registered : Bool
  listenersBound : Bool
  debug : Bool

/-- The `target` option: an element, an element id, or absent. -/
inductive TargetOpt where
  | absent : TargetOpt
  | idStr (s : String) : TargetOpt
  | elemRef (e : Elem) : TargetOpt

/-- JS truthiness of the `target` option. -/
def targetTruthy : TargetOpt → Bool
  | .absent => false
  | .idStr s => s != ""
  | .elemRef _ => true

/-- The construction options the claims observe. -/
structure Options where
  target : TargetOpt
  outline : JSVal
  debug : Bool

/-- Outcome of `new Perimeter(options)`: an inert early return (no fields
set), a thrown exception, or a fully initialised instance. -/
inductive ConstructResult where
  | inert : ConstructResult
  | thrown (msg : String) : ConstructResult
  | made (s : PerimeterState) : ConstructResult

/-- Resolution of the `target` option: a string goes through
`document.getElementById` (the `doc` map), an element reference is used
directly. -/
def lookupTarget (doc : String → Option Elem) : TargetOpt → Option Elem
  | .idStr s => doc s
  | .elemRef e => some e
  | .absent => none

/-- The `Perimeter` constructor followed by `init`:
guard (`!options || !options.target || !options.outline` returns early),
then `this.outline = formatOutline(...)`, `this.target = ...`,
`this.rects = this.getClientRect(this.target)` — which throws a `TypeError`
when the target resolved to `null`, and the unsupported-browser `Error` when
the element lacks `getBoundingClientRect` — and finally `init`, which
registers the instance and binds the event listeners. -/
def construct (env : ScrollEnv) (doc : String → Option Elem)
    (optsQ : Option Options) : ConstructResult :=
  match optsQ with
  | none => .inert
  | some opts =>
    if targetTruthy opts.target = false ∨ toBoolean opts.outline = false then .inert
    else
      match formatOutline opts.outline with
      | .error m => .thrown m
      | .ok ol =>
        match lookupTarget doc opts.target with
        | none =>
          .thrown "TypeError: Cannot read properties of null (reading getBoundingClientRect)"
        | some e =>
          match getClientRect env e with
          | .error m => .thrown m
          | .ok r =>
            .made { target := e,
                    outline := .arr (.ofList (ol.map .num)),
                    rects := r,
                    alarm := false,
                    breaches := [],
                    registered := true,
                    listenersBound := true,
                    debug := opts.debug }

/-- The `this instanceof Perimeter` branch of
`Perimeter.prototype.recalculate`: re-runs `formatOutline` on the current
`outline` field and stores the result; `rects` is not touched
(the debug boundary reflow writes only to the overlay, never to the engine). -/
def recalcInstance (s : PerimeterState) : Except String PerimeterState :=
  match formatOutline s.outline with
  | .error m => .error m
  | .ok ol => .ok { s with outline := .arr (.ofList (ol.map .num)) }

/-- The broadcast (resize-handler) branch of `Perimeter.prototype.recalculate`:
for every registered instance, `inst.rects = inst.getClientRect(inst.target)`;
`outline` is not touched. The source walks the registry from the last
instance to the first; each instance is updated independently, so the list
order is kept here. -/
def recalcBroadcast (env : ScrollEnv) :
    List PerimeterState → Except String (List PerimeterState)
  | [] => .ok []
  | s :: rest =>
    match getClientRect env s.target with
    | .error m => .error m
    | .ok r =>
      match recalcBroadcast env rest with
      | .error m => .error m
      | .ok restQ => .ok ({ s with rects := r } :: restQ)

/-- The detection-layer view of an instance: the monitor reads the four
outline entries and the cached rectangle as plain numbers (this is their
shape after a successful `formatOutline` of valid input). -/
structure OutlineNums where
  top : Int
  right : Int
  bottom : Int
  left : Int
deriving DecidableEq

/-- The state `Monitor.detect` reads and writes. -/
structure MonState where
  target : Elem
  outline : OutlineNums
  rects : Rect
  alarm : Bool
  breaches : List (Int × Int)
deriving DecidableEq

/-- `maxTop` as computed in `Monitor.detect` (the source wraps the integer
arithmetic in `parseInt(·, 10)`, the identity on integer values). -/
def maxTopOf (env : ScrollEnv) (s : MonState) : Int :=
  s.target.offsetTop - (getScrollPos env).1 - s.outline.top

/-- `maxLeft` as computed in `Monitor.detect`. -/
def maxLeftOf (env : ScrollEnv) (s : MonState) : Int :=
  s.target.offsetLeft - (getScrollPos env).2 - s.outline.left

/-- The exclusive lower/bottom bound of the breach test:
`maxTop + rects.height + (outline[0] + outline[2])`. -/
def outerBottomOf (env : ScrollEnv) (s : MonState) : Int :=
  maxTopOf env s + s.rects.height + (s.outline.top + s.outline.bottom)

/-- The exclusive right bound of the breach test:
`maxLeft + rects.width + (outline[1] + outline[3])`. -/
def outerRightOf (env : ScrollEnv) (s : MonState) : Int :=
  maxLeftOf env s + s.rects.width + (s.outline.right + s.outline.left)

/-- The `case breach` test of `Monitor.detect` (half-open on the far sides). -/
def breachCond (env : ScrollEnv) (s : MonState) (x y : Int) : Prop :=
  y ≥ maxTopOf env s ∧ y < outerBottomOf env s ∧
  x ≥ maxLeftOf env s ∧ x < outerRightOf env s

/-- The `case leave` test of `Monitor.detect` (strict on the far sides). -/
def leaveCond (env : ScrollEnv) (s : MonState) (x y : Int) : Prop :=
  y < maxTopOf env s ∨ y > outerBottomOf env s ∨
  x < maxLeftOf env s ∨ x > outerRightOf env s

instance (env : ScrollEnv) (s : MonState) (x y : Int) :
    Decidable (breachCond env s x y) := by
  unfold breachCond; infer_instance

instance (env : ScrollEnv) (s : MonState) (x y : Int) :
    Decidable (leaveCond env s x y) := by
  unfold leaveCond; infer_instance

/-- A `trigger` call: `trigger('breach', event)` dispatches to
`options.onBreach` (when it is a function), `trigger('leave')` to
`options.onLeave`. -/
inductive TransitionEv where
  | breach (x y : Int) : TransitionEv
  | leave : TransitionEv
deriving DecidableEq

/-- `Monitor.detect`: switches on the state string; on a satisfied breach
test it appends the position to `breaches`, triggers `breach` and raises the
alarm; on a satisfied leave test it triggers `leave` and clears the alarm. -/
def detect (env : ScrollEnv) (s : MonState) (x y : Int) (state : String) :
    MonState × List TransitionEv :=
  if state = "breach" then
    if breachCond env s x y then
      ({ s with breaches := s.breaches ++ [(x, y)], alarm := true }, [.breach x y])
    else (s, [])
  else if state = "leave" then
    if leaveCond env s x y then ({ s with alarm := false }, [.leave])
    else (s, [])
  else (s, [])

/-- `Monitor.observe`: records the event and runs
`detect(alarm ? 'leave' : 'breach')` at the event's pointer position. -/
def observe (env : ScrollEnv) (s : MonState) (p : Int × Int) :
    MonState × List TransitionEv :=
  detect env s p.1 p.2 (if s.alarm then "leave" else "breach")

/-- A sequence of pointer-position updates delivered to `observe`, with the
triggered transitions concatenated in order. -/
def runMon (env : ScrollEnv) :
    MonState → List (Int × Int) → MonState × List TransitionEv
  | s, [] => (s, [])
  | s, p :: ps =>
    let r := observe env s p
    let rest := runMon env r.1 ps
    (rest.1, r.2 ++ rest.2)

/-- Shorthand for a 4-element outline array of plain integer numbers, the
shape the spec calls a valid outline. -/
def mkOutline4 (t r b l : Int) : JSVal :=
  .arr (.ofList [.num (.int t), .num (.int r), .num (.int b), .num (.int l)])

/-- A browser scroll environment with zero scroll and zero origin offset. -/
def env0 : ScrollEnv := ⟨0, 0, 0, 0, 0, 0⟩

/-- A scroll environment whose document is scrolled 40 pixels down. -/
def envScrolled : ScrollEnv := ⟨40, 0, 0, 0, 0, 0⟩

/-- The element of the spec's worked example: bounding box
`{top: 100, left: 100, width: 50, height: 50}` and matching offsets. -/
def elemA : Elem := ⟨some ⟨50, 50, 100, 100⟩, 50, 50, 100, 100⟩

/-- A host element without `getBoundingClientRect`. -/
def elemNoGbcr : Elem := ⟨none, 50, 50, 100, 100⟩

/-- A document in which no id resolves to an element. -/
def docEmpty : String → Option Elem := fun _ => none

/-- Armed monitor state over `elemA` with outline `[0,0,0,0]` and the cached
rectangle of `elemA` under `env0`. -/
def monArmed : MonState := ⟨elemA, ⟨0, 0, 0, 0⟩, ⟨50, 50, 100, 100⟩, false, []⟩

/-- The state reached from `monArmed` after the breach at `(125, 125)`. -/
def monBreached : MonState := ⟨elemA, ⟨0, 0, 0, 0⟩, ⟨50, 50, 100, 100⟩, true, [(125, 125)]⟩

/-- A constructed instance over `elemA` (outline `[10,10,10,10]`, cached
rectangle resolved under `env0`). -/
def perimA : PerimeterState :=
  { target := elemA,
    outline := .arr (.ofList [.num (.int 10), .num (.int 10), .num (.int 10), .num (.int 10)]),
    rects := ⟨50, 50, 100, 100⟩,
    alarm := false,
    breaches := [],
    registered := true,
    listenersBound := true,
    debug := false }

/-- `perimA` with its alarm raised and one logged breach, used to exercise
the frame conditions of `recalculate`. -/
def perimB : PerimeterState :=
  { perimA with alarm := true, breaches := [(125, 125)] }

/-- `perimA` as refreshed by a broadcast recalculation under `envScrolled`:
only the cached rectangle moves (top `100` to `140`). -/
def perimAScrolled : PerimeterState := { perimA with rects := ⟨50, 50, 140, 100⟩ }

/-- `perimB` as refreshed by a broadcast recalculation under `envScrolled`. -/
def perimBScrolled : PerimeterState := { perimB with rects := ⟨50, 50, 140, 100⟩ }

/-- A 4-element ordered sequence of numbers whose first entry is `Infinity`:
accepted by `formatOutline`, yet `parseInt(Infinity, 10)` is `NaN`. -/
def outlineWithInfinity : JSVal :=
  .arr (.ofList [.num .posInf, .num (.int 1), .num (.int 2), .num (.int 3)])

/-! ### Helper lemmas about the decimal digit model -/

lemma digitVal_digitChar {n : Nat} (h : n < 10) : digitVal (digitChar n) = n := by
  interval_cases n <;> rfl

lemma isDigit_digitChar {n : Nat} (h : n < 10) : (digitChar n).isDigit = true := by
  interval_cases n <;> decide

lemma ofDigits_append_singleton (ds : List Char) (c : Char) :
    ofDigits (ds ++ [c]) = 10 * ofDigits ds + digitVal c := by
  simp [ofDigits, List.foldl_append]

lemma natToDigitsAux_spec :
    ∀ fuel n acc, n < fuel →
      ∃ ds, natToDigitsAux fuel n acc = ds ++ acc ∧ ds ≠ [] ∧
        (∀ c ∈ ds, c.isDigit = true) ∧ ofDigits ds = n := by
  intro fuel
  induction fuel with
  | zero => intro n acc h; omega
  | succ fuel ih =>
    intro n acc h
    by_cases hn : n < 10
    · refine ⟨[digitChar n], ?_, by simp, ?_, ?_⟩
      · simp [natToDigitsAux, hn]
      · intro c hc
        simp at hc
        subst hc
        exact isDigit_digitChar hn
      · simp [ofDigits, digitVal_digitChar hn]
    · have hdiv : n / 10 < fuel := by omega
      obtain ⟨ds, h1, h2, h3, h4⟩ := ih (n / 10) (digitChar (n % 10) :: acc) hdiv
      refine ⟨ds ++ [digitChar (n % 10)], ?_, by simp, ?_, ?_⟩
      · simp [natToDigitsAux, hn, h1]
      · intro c hc
        simp at hc
        rcases hc with hc | hc
        · exact h3 c hc
        · subst hc; exact isDigit_digitChar (by omega)
      · rw [ofDigits_append_singleton, h4, digitVal_digitChar (by omega)]
        omega

lemma natToDigits_spec (n : Nat) :
    natToDigits n ≠ [] ∧ (∀ c ∈ natToDigits n, c.isDigit = true) ∧
      ofDigits (natToDigits n) = n := by
  obtain ⟨ds, h1, h2, h3, h4⟩ := natToDigitsAux_spec (n + 1) n [] (by omega)
  rw [natToDigits, h1, List.append_nil]
  exact ⟨h2, h3, h4⟩

lemma jsSpace_eq_false_of_isDigit {c : Char} (h : c.isDigit = true) :
    jsSpace c = false := by
  cases hc : jsSpace c
  · rfl
  · exfalso
    simp only [jsSpace, decide_eq_true_eq] at hc
    rcases hc with rfl | rfl | rfl | rfl <;> simp at h

lemma ne_of_isDigit_of_not {c d : Char} (h : c.isDigit = true)
    (hd : d.isDigit = false) : c ≠ d := by
  intro heq; subst heq; rw [h] at hd; cases hd

lemma takeWhile_eq_self_of_all {p : Char → Bool} {l : List Char}
    (h : ∀ a ∈ l, p a = true) : l.takeWhile p = l := by
  induction l with
  | nil => rfl
  | cons a l ih =>
    rw [List.takeWhile_cons, h a (by simp)]
    simp [ih fun a ha => h a (by simp [ha])]

lemma splitSign_no_sign {c : Char} {rest : List Char} (h : c.isDigit = true) :
    splitSign (c :: rest) = (1, c :: rest) := by
  have h1 : c ≠ '-' := ne_of_isDigit_of_not h (by decide)
  have h2 : c ≠ '+' := ne_of_isDigit_of_not h (by decide)
  simp [splitSign, h1, h2]

lemma parseIntChars_digits {ds : List Char} (hne : ds ≠ [])
    (hd : ∀ c ∈ ds, c.isDigit = true) :
    parseIntChars ds = .int (ofDigits ds) := by
  cases ds with
  | nil => exact absurd rfl hne
  | cons c rest =>
    have hc : c.isDigit = true := hd c (by simp)
    have hspace : jsSpace c = false := jsSpace_eq_false_of_isDigit hc
    have hdrop : List.dropWhile jsSpace (c :: rest) = c :: rest := by
      rw [List.dropWhile_cons, hspace]
      simp
    have htake : List.takeWhile Char.isDigit (c :: rest) = c :: rest :=
      takeWhile_eq_self_of_all hd
    simp [parseIntChars, hdrop, splitSign_no_sign hc, htake]

lemma jsParseInt_int_nonneg {n : Int} (h : 0 ≤ n) :
    jsParseInt (.num (.int n)) = .int n := by
  have hneg : ¬ n < 0 := by omega
  have hchars : jsToChars (.num (.int n)) = natToDigits n.toNat := by
    simp [jsToChars, numToChars, intToChars, hneg]
  obtain ⟨h1, h2, h3⟩ := natToDigits_spec n.toNat
  rw [jsParseInt, hchars, parseIntChars_digits h1 h2, h3,
    Int.toNat_of_nonneg h]

lemma trimChars_cons_append {c z : Char} {mid : List Char}
    (hc : jsSpace c = false) (hz : jsSpace z = false) :
    trimChars (c :: (mid ++ [z])) = c :: (mid ++ [z]) := by
  have h1 : List.dropWhile jsSpace (c :: (mid ++ [z])) = c :: (mid ++ [z]) := by
    rw [List.dropWhile_cons, hc]; simp
  have h2 : (c :: (mid ++ [z])).reverse = z :: (mid.reverse ++ [c]) := by simp
  have h3 : List.dropWhile jsSpace (z :: (mid.reverse ++ [c]))
      = z :: (mid.reverse ++ [c]) := by
    rw [List.dropWhile_cons, hz]; simp
  rw [trimChars, h1, h2, h3]
  simp

lemma strToNumberChars_join4 {d1 d2 d3 d4 : List Char}
    (h1 : d1 ≠ []) (ha1 : ∀ c ∈ d1, c.isDigit = true)
    (h4 : d4 ≠ []) (ha4 : ∀ c ∈ d4, c.isDigit = true) :
    strToNumberChars (d1 ++ ',' :: (d2 ++ ',' :: (d3 ++ ',' :: d4))) = .nan := by
  obtain ⟨c, d1', rfl⟩ : ∃ c d1', d1 = c :: d1' := by
    cases d1 with
    | nil => exact absurd rfl h1
    | cons c d1' => exact ⟨c, d1', rfl⟩
  obtain ⟨w4, z, rfl⟩ : ∃ w4 z, d4 = w4 ++ [z] := by
    cases hr : d4.reverse with
    | nil => exact absurd (by simpa using congrArg List.reverse hr) h4
    | cons z w =>
      exact ⟨w.reverse, z, by simpa using congrArg List.reverse hr⟩
  have hc : c.isDigit = true := ha1 c (by simp)
  have hzd : z.isDigit = true := ha4 z (by simp)
  have hshape :
      (c :: d1') ++ ',' :: (d2 ++ ',' :: (d3 ++ ',' :: (w4 ++ [z])))
      = c :: ((d1' ++ ',' :: (d2 ++ ',' :: (d3 ++ ',' :: w4))) ++ [z]) := by
    simp
  set mid := d1' ++ ',' :: (d2 ++ ',' :: (d3 ++ ',' :: w4)) with hmid
  rw [hshape]
  have htrim : trimChars (c :: (mid ++ [z])) = c :: (mid ++ [z]) :=
    trimChars_cons_append (jsSpace_eq_false_of_isDigit hc)
      (jsSpace_eq_false_of_isDigit hzd)
  have hInf : ("Infinity".data : List Char) = 'I' :: "nfinity".data := rfl
  have hInfP : ("+Infinity".data : List Char) = '+' :: "Infinity".data := rfl
  have hInfN : ("-Infinity".data : List Char) = '-' :: "Infinity".data := rfl
  have hne1 : c :: (mid ++ [z]) ≠ ("Infinity".data : List Char) := by
    rw [hInf]; intro h; injection h with hhead _
    exact ne_of_isDigit_of_not hc (by decide) hhead
  have hne2 : c :: (mid ++ [z]) ≠ ("+Infinity".data : List Char) := by
    rw [hInfP]; intro h; injection h with hhead _
    exact ne_of_isDigit_of_not hc (by decide) hhead
  have hne3 : c :: (mid ++ [z]) ≠ ("-Infinity".data : List Char) := by
    rw [hInfN]; intro h; injection h with hhead _
    exact ne_of_isDigit_of_not hc (by decide) hhead
  have hallF : (c :: (mid ++ [z])).all Char.isDigit = false := by
    rw [List.all_eq_false]
    refine ⟨',', by simp [hmid], by decide⟩
  simp [strToNumberChars, htrim, hne1, hne2, hne3, splitSign_no_sign hc, hallF]

lemma intToChars_nonneg {n : Int} (h : 0 ≤ n) :
    intToChars n = natToDigits n.toNat := by
  have : ¬ n < 0 := by omega
  simp [intToChars, this]

lemma jsToChars_mkOutline4 (t r b l : Int) :
    jsToChars (mkOutline4 t r b l)
      = intToChars t ++ ',' :: (intToChars r ++ ',' :: (intToChars b ++ ',' :: intToChars l)) := by
  simp [mkOutline4, JSList.ofList, jsToChars, jsElemsToChars, numToChars, joinComma]

lemma jsIsNaN_mkOutline4 {t r b l : Int} (ht : 0 ≤ t) (hr : 0 ≤ r)
    (hb : 0 ≤ b) (hl : 0 ≤ l) : jsIsNaN (mkOutline4 t r b l) = true := by
  have hdig : ∀ (v : Int), 0 ≤ v →
      intToChars v ≠ [] ∧ ∀ c ∈ intToChars v, c.isDigit = true := by
    intro v hv
    rw [intToChars_nonneg hv]
    obtain ⟨h1, h2, _⟩ := natToDigits_spec v.toNat
    exact ⟨h1, h2⟩
  obtain ⟨ht1, ht2⟩ := hdig t ht
  obtain ⟨hl1, hl2⟩ := hdig l hl
  have : toNumber (mkOutline4 t r b l) = .nan := by
    rw [mkOutline4, toNumber, ← mkOutline4, jsToChars_mkOutline4]
    exact strToNumberChars_join4 ht1 ht2 hl1 hl2
  simp [jsIsNaN, this]

lemma formatOutline_valid {t r b l : Int} (ht : 0 ≤ t) (hr : 0 ≤ r)
    (hb : 0 ≤ b) (hl : 0 ≤ l) :
    formatOutline (mkOutline4 t r b l) = .ok [.int t, .int r, .int b, .int l] := by
  have hNaN := jsIsNaN_mkOutline4 ht hr hb hl
  have hentry : ∀ (v : Int), 0 ≤ v →
      (if toBoolean (.num (.int v)) = false then JNum.int 0 else jsParseInt (.num (.int v)))
        = .int v := by
    intro v hv
    by_cases hv0 : v = 0
    · subst hv0; simp [toBoolean]
    · have hb' : toBoolean (.num (.int v)) = true := by
        simp [toBoolean]
        exact hv0
      rw [hb']
      simp [jsParseInt_int_nonneg hv]
  simp only [mkOutline4, JSList.ofList] at hNaN ⊢
  simp [formatOutline, formatEntry, hNaN, jsIndexE, JSList.get?, Bind.bind,
    Except.bind, Pure.pure, Except.pure, hentry t ht, hentry r hr, hentry b hb,
    hentry l hl]

lemma formatOutline_ok_elim {v : JSVal} {out : List JNum}
    (h : formatOutline v = .ok out) :
    ∃ a b c d, formatEntry v 0 = .ok a ∧ formatEntry v 1 = .ok b ∧
      formatEntry v 2 = .ok c ∧ formatEntry v 3 = .ok d ∧ out = [a, b, c, d] := by
  cases h0 : formatEntry v 0 with
  | error m => simp [formatOutline, h0, Bind.bind, Except.bind] at h
  | ok a =>
    cases h1 : formatEntry v 1 with
    | error m => simp [formatOutline, h0, h1, Bind.bind, Except.bind] at h
    | ok b =>
      cases h2 : formatEntry v 2 with
      | error m => simp [formatOutline, h0, h1, h2, Bind.bind, Except.bind] at h
      | ok c =>
        cases h3 : formatEntry v 3 with
        | error m => simp [formatOutline, h0, h1, h2, h3, Bind.bind, Except.bind] at h
        | ok d =>
          refine ⟨a, b, c, d, rfl, rfl, rfl, rfl, ?_⟩
          simp [formatOutline, h0, h1, h2, h3, Bind.bind, Except.bind,
            Pure.pure, Except.pure] at h
          exact h.symm

lemma breachCond_not_leaveCond {env : ScrollEnv} {s : MonState} {x y : Int}
    (h : breachCond env s x y) : ¬ leaveCond env s x y := by
  simp only [breachCond, leaveCond] at *
  omega

lemma observe_breached_inside {env : ScrollEnv} {s : MonState} {p : Int × Int}
    (halarm : s.alarm = true) (hin : breachCond env s p.1 p.2) :
    observe env s p = (s, []) := by
  have hnl : ¬ leaveCond env s p.1 p.2 := breachCond_not_leaveCond hin
  simp [observe, halarm, detect, hnl]

/-! ### Claim theorems -/

/-- C1: the claim says an unresolvable target identifier is recovered
silently (constructor completes, `init` skipped). The code disagrees: with a
target id that resolves to no element, `this.rects = this.getClientRect(this.target)`
dereferences `null` and throws a `TypeError` before `init`'s null-target
guard can run, so construction raises instead of completing inertly. This
evaluates the constructor at that failing input. -/
theorem construct_unresolvable_target_throws :
    construct env0 docEmpty (some ⟨.idStr "ghost", .num (.int 10), false⟩)
      = .thrown "TypeError: Cannot read properties of null (reading getBoundingClientRect)" :=
  rfl

/-- C10: constructing with a valid target element but the scalar outline `0`
trips the falsy guard `!options.outline`, so the constructor returns early:
the instance is inert, never registered, and binds no listeners. -/
theorem construct_zero_outline_inert :
    construct env0 docEmpty (some ⟨.elemRef elemA, .num (.int 0), false⟩) = .inert :=
  rfl

/-- C9: when the element offers no bounding-box primitive
(`getBoundingClientRect` missing), `getClientRect` raises the
unsupported-environment error instead of returning a rectangle. -/
theorem getClientRect_unsupported_error (env : ScrollEnv) (e : Elem)
    (h : e.gbcr = none) :
    getClientRect env e
      = .error "Perimeter.js detected that your browser does not support getBoundingClientRect" := by
  simp [getClientRect, h]

/-- Witness for C9 at the concrete element `elemNoGbcr` under `env0`. -/
theorem getClientRect_unsupported_error_witness :
    getClientRect env0 elemNoGbcr
      = .error "Perimeter.js detected that your browser does not support getBoundingClientRect" :=
  getClientRect_unsupported_error env0 elemNoGbcr rfl

/-- C6: with the box `{top:100, left:100, width:50, height:50}`, outline
`[0,0,0,0]` and zero scroll, a pointer update at `(125,125)` while Armed
triggers the breach (event fired, position appended, alarm raised), and an
update at `(200,200)` while Armed is a no-op. -/
theorem breach_scenario_concrete :
    observe env0 monArmed (125, 125) = (monBreached, [.breach 125 125]) ∧
    monBreached.alarm = true ∧ monBreached.breaches = [(125, 125)] ∧
    observe env0 monArmed (200, 200) = (monArmed, []) ∧ monArmed.alarm = false :=
  ⟨rfl, rfl, rfl, rfl, rfl⟩

/-- C2 counterexample: at pointer `(125, 150)` over the example geometry,
`150` equals the exclusive bottom bound of the breach test, so the breach
test fails, and the leave test (strict on that side) fails too: the two
predicates do not cover all positions. -/
theorem breach_leave_gap_cex :
    ¬ (breachCond env0 monArmed 125 150 ∨ leaveCond env0 monArmed 125 150) := by
  decide

/-- C2 amended: the breach and leave predicates cover every pointer position
except the closed bottom/right boundary band of the expanded box: neither
holds exactly when the position lies inside the closed expanded box and on
its bottom edge (`y` equal to the exclusive bottom bound) or right edge
(`x` equal to the exclusive right bound). -/
theorem breach_leave_cover_except_boundary (env : ScrollEnv) (s : MonState)
    (x y : Int) :
    (¬ breachCond env s x y ∧ ¬ leaveCond env s x y) ↔
      (maxTopOf env s ≤ y ∧ y ≤ outerBottomOf env s ∧
       maxLeftOf env s ≤ x ∧ x ≤ outerRightOf env s ∧
       (y = outerBottomOf env s ∨ x = outerRightOf env s)) := by
  simp only [breachCond, leaveCond]
  omega

/-- C8: on a valid 4-element outline (four non-negative integers),
`formatOutline` is idempotent: feeding its result back through
`formatOutline` returns the same 4 values. -/
theorem formatOutline_idempotent_on_valid (t r b l : Int) (ht : 0 ≤ t)
    (hr : 0 ≤ r) (hb : 0 ≤ b) (hl : 0 ≤ l) :
    (formatOutline (mkOutline4 t r b l)).bind
        (fun out => formatOutline (.arr (.ofList (out.map .num))))
      = formatOutline (mkOutline4 t r b l) := by
  rw [formatOutline_valid ht hr hb hl]
  show formatOutline (mkOutline4 t r b l) = _
  rw [formatOutline_valid ht hr hb hl]

/-- Witness for C8 at the valid outline `[1, 2, 3, 0]`. -/
theorem formatOutline_idempotent_on_valid_witness :
    (formatOutline (mkOutline4 1 2 3 0)).bind
        (fun out => formatOutline (.arr (.ofList (out.map .num))))
      = formatOutline (mkOutline4 1 2 3 0) :=
  formatOutline_idempotent_on_valid 1 2 3 0 (by decide) (by decide) (by decide)
    (by decide)

/-- C3 counterexample: under a scrolled environment the Geometry Resolver
returns a fresh rectangle (top `140`), yet an instance-level `recalculate()`
leaves the cached rectangle at top `100`: the instance call does not
re-resolve the rectangle via `getClientRect`, contrary to the claim. -/
theorem recalcInstance_ignores_fresh_rect_cex :
    getClientRect envScrolled perimA.target = .ok ⟨50, 50, 140, 100⟩ ∧
    recalcInstance perimA = .ok perimA ∧
    perimA.rects ≠ (⟨50, 50, 140, 100⟩ : Rect) :=
  ⟨rfl, rfl, by decide⟩

/-- C3 amended: the two `recalculate` paths split the claimed work. The
instance call re-normalizes `outline` by re-running the construction-time
coercion (`formatOutline`, tolerating externally mutated values) but leaves
the cached rectangle untouched; the registry-wide broadcast re-resolves each
instance's rectangle via `getClientRect` but leaves each `outline`
untouched. -/
theorem recalculate_split_effects :
    (∀ (s sR : PerimeterState), recalcInstance s = .ok sR →
        (∃ ol, formatOutline s.outline = .ok ol ∧
          sR.outline = .arr (.ofList (ol.map .num))) ∧ sR.rects = s.rects) ∧
    (∀ (env : ScrollEnv) (l lR : List PerimeterState),
        recalcBroadcast env l = .ok lR →
        List.Forall₂
          (fun s sR => sR.outline = s.outline ∧ getClientRect env s.target = .ok sR.rects)
          l lR) := by
  constructor
  · intro s sR h
    cases hf : formatOutline s.outline with
    | error m => simp [recalcInstance, hf] at h
    | ok ol =>
      simp only [recalcInstance, hf] at h
      obtain rfl : ({ s with outline := .arr (.ofList (ol.map .num)) } : PerimeterState) = sR := by
        simpa using h
      exact ⟨⟨ol, rfl, rfl⟩, rfl⟩
  · intro env l
    induction l with
    | nil =>
      intro lR h
      obtain rfl : ([] : List PerimeterState) = lR := by
        simpa [recalcBroadcast] using h
      exact List.Forall₂.nil
    | cons s rest ih =>
      intro lR h
      cases hg : getClientRect env s.target with
      | error m => simp [recalcBroadcast, hg] at h
      | ok r =>
        cases hrec : recalcBroadcast env rest with
        | error m => simp [recalcBroadcast, hg, hrec] at h
        | ok restR =>
          simp only [recalcBroadcast, hg, hrec] at h
          obtain rfl : ({ s with rects := r } : PerimeterState) :: restR = lR := by
            simpa using h
          exact List.Forall₂.cons ⟨rfl, hg⟩ (ih restR hrec)

/-- Witness for C3 amended: instance recalculation of `perimA` (outline kept,
rectangle kept) and a broadcast under `envScrolled` (rectangle moved to
`perimAScrolled`'s, outline kept). -/
theorem recalculate_split_effects_witness :
    ((∃ ol, formatOutline perimA.outline = .ok ol ∧
        perimA.outline = .arr (.ofList (ol.map .num))) ∧ perimA.rects = perimA.rects) ∧
    List.Forall₂
      (fun s sR => sR.outline = s.outline ∧
        getClientRect envScrolled s.target = .ok sR.rects)
      [perimA] [perimAScrolled] :=
  ⟨recalculate_split_effects.1 perimA perimA rfl,
   recalculate_split_effects.2 envScrolled [perimA] [perimAScrolled] rfl⟩

/-- C4: neither `recalculate` path changes the alarm state or the breach
log: the instance call and the registry-wide broadcast preserve `alarm` and
`breaches` of every instance (only `rectangle`/`outline` may differ). -/
theorem recalculate_preserves_alarm_and_breaches :
    (∀ (s sR : PerimeterState), recalcInstance s = .ok sR →
        sR.alarm = s.alarm ∧ sR.breaches = s.breaches) ∧
    (∀ (env : ScrollEnv) (l lR : List PerimeterState),
        recalcBroadcast env l = .ok lR →
        lR.map (fun s => (s.alarm, s.breaches)) = l.map (fun s => (s.alarm, s.breaches))) := by
  constructor
  · intro s sR h
    cases hf : formatOutline s.outline with
    | error m => simp [recalcInstance, hf] at h
    | ok ol =>
      simp only [recalcInstance, hf] at h
      obtain rfl : ({ s with outline := .arr (.ofList (ol.map .num)) } : PerimeterState) = sR := by
        simpa using h
      exact ⟨rfl, rfl⟩
  · intro env l
    induction l with
    | nil =>
      intro lR h
      obtain rfl : ([] : List PerimeterState) = lR := by
        simpa [recalcBroadcast] using h
      rfl
    | cons s rest ih =>
      intro lR h
      cases hg : getClientRect env s.target with
      | error m => simp [recalcBroadcast, hg] at h
      | ok r =>
        cases hrec : recalcBroadcast env rest with
        | error m => simp [recalcBroadcast, hg, hrec] at h
        | ok restR =>
          simp only [recalcBroadcast, hg, hrec] at h
          obtain rfl : ({ s with rects := r } : PerimeterState) :: restR = lR := by
            simpa using h
          simp [ih restR hrec]

/-- Witness for C4: the alarmed, breach-logged instance `perimB` put through
an instance recalculation and through a broadcast under `envScrolled`. -/
theorem recalculate_preserves_alarm_and_breaches_witness :
    (perimB.alarm = perimB.alarm ∧ perimB.breaches = perimB.breaches) ∧
    [perimBScrolled].map (fun s => (s.alarm, s.breaches))
      = [perimB].map (fun s => (s.alarm, s.breaches)) :=
  ⟨recalculate_preserves_alarm_and_breaches.1 perimB perimB rfl,
   recalculate_preserves_alarm_and_breaches.2 envScrolled [perimB] [perimBScrolled] rfl⟩

/-- C5 counterexample: the ordered sequence `[Infinity, 1, 2, 3]` is accepted
by `formatOutline`, but its first entry is truthy and `parseInt(Infinity, 10)`
is `NaN`, so the result contains `NaN`: invalid numeric entries do not all
normalize to `0`. -/
theorem formatOutline_nan_entry_cex :
    formatOutline outlineWithInfinity = .ok [.nan, .int 1, .int 2, .int 3] ∧
    JNum.nan ∈ [JNum.nan, .int 1, .int 2, .int 3] :=
  ⟨rfl, by simp⟩

/-- C5 amended: of the original invariant only the count and the falsy rule
survive. Every (non-throwing) `formatOutline` run yields exactly 4 values,
and a *falsy* entry of a sequence input normalizes to `0`; but a truthy
non-numeric entry yields `NaN` (see the counterexample), not `0` — and in
the host language a long enough digit string can even denote an infinity
(number saturation at `2^1024`), which this model deliberately does not
decide, so no no-infinity guarantee is claimed. -/
theorem formatOutline_shape (v : JSVal) (out : List JNum)
    (h : formatOutline v = .ok out) :
    out.length = 4 ∧
    (∀ (i : Nat) (e : JSVal), jsIsNaN v = true → jsIndexE v i = .ok e →
        toBoolean e = false → formatEntry v i = .ok (.int 0)) := by
  obtain ⟨a, b, c, d, h0, h1, h2, h3, rfl⟩ := formatOutline_ok_elim h
  refine ⟨rfl, ?_⟩
  intro i e hnan hidx hfalsy
  simp [formatEntry, hnan, hidx, hfalsy]

/-- Witness for C5 amended at the valid sequence `[0, 5, 7, 0]` (its first
entry `0` is falsy and indeed normalizes to `0`). -/
theorem formatOutline_shape_witness :
    ([JNum.int 0, .int 5, .int 7, .int 0].length = 4 ∧
      (∀ (i : Nat) (e : JSVal), jsIsNaN (mkOutline4 0 5 7 0) = true →
          jsIndexE (mkOutline4 0 5 7 0) i = .ok e → toBoolean e = false →
          formatEntry (mkOutline4 0 5 7 0) i = .ok (.int 0))) :=
  formatOutline_shape (mkOutline4 0 5 7 0) [JNum.int 0, .int 5, .int 7, .int 0] rfl

/-- C7: once Breached, updates whose positions still satisfy the breach
region trigger nothing — the state (alarm and breach log included) is
untouched and no event fires over the whole sequence; moreover a breach
event can only ever fire from an Armed pre-state, and it raises the alarm
(Armed-to-Breached transition). -/
theorem no_breach_refire_while_breached :
    (∀ (env : ScrollEnv) (s : MonState) (ps : List (Int × Int)),
        s.alarm = true → (∀ p ∈ ps, breachCond env s p.1 p.2) →
        runMon env s ps = (s, [])) ∧
    (∀ (env : ScrollEnv) (s : MonState) (p : Int × Int) (x y : Int),
        .breach x y ∈ (observe env s p).2 →
        s.alarm = false ∧ (observe env s p).1.alarm = true) := by
  constructor
  · intro env s ps halarm
    induction ps with
    | nil => intro _; rfl
    | cons p ps ih =>
      intro hin
      have hobs : observe env s p = (s, []) :=
        observe_breached_inside halarm (hin p (by simp))
      have hrest : runMon env s ps = (s, []) := ih fun q hq => hin q (by simp [hq])
      simp [runMon, hobs, hrest]
  · intro env s p x y hmem
    cases halarm : s.alarm with
    | false =>
      refine ⟨rfl, ?_⟩
      simp only [observe, halarm] at hmem ⊢
      by_cases hb : breachCond env s p.1 p.2
      · simp [detect, hb]
      · simp [detect, hb] at hmem
    | true =>
      exfalso
      simp only [observe, halarm] at hmem
      by_cases hl : leaveCond env s p.1 p.2
      · simp [detect, hl] at hmem
      · simp [detect, hl] at hmem

/-- Witness for C7: from the breached state `monBreached`, an update at the
still-inside position `(125, 125)` leaves the state and event log untouched;
and the breach event fired from `monArmed` at `(125, 125)` indeed happens on
an Armed pre-state and raises the alarm. -/
theorem no_breach_refire_while_breached_witness :
    runMon env0 monBreached [(125, 125)] = (monBreached, []) ∧
    (monArmed.alarm = false ∧ (observe env0 monArmed (125, 125)).1.alarm = true) :=
  ⟨no_breach_refire_while_breached.1 env0 monBreached [(125, 125)] rfl
      (by intro p hp; simp only [List.mem_singleton] at hp; subst hp; decide),
   no_breach_refire_while_breached.2 env0 monArmed (125, 125) 125 125 (by decide)⟩
